import Mathlib

/-!
Verification of the tldwatch pipeline: fetch the IANA top-level-domain
list, normalize each line, decode ASCII-compatible (punycode) labels to
Unicode, insert previously-unseen entries into an embedded sqlite store,
and print the newly inserted entries as a JSON array on standard output.

The Go source is embedded shallowly:

* the line scanner of loadTLDs becomes the recursive function parseLines;
* the idna ToUnicode profile is an external library, so it is a parameter
  "decode : String -> String × Option String" mirroring the Go signature
  (result string, optional error); theorems that depend on library
  behavior state that behavior as an explicit hypothesis;
* the sqlite insert statement is a parameter
  "exec : List String -> String -> List String × Option String"
  (new rows, optional error message), with dbInsert the model of a
  healthy sqlite table with a primary-key uniqueness constraint;
* the run function becomes runModel, returning the terminal result, the
  final store, the bytes written to standard output, the new-entry list
  and the emitted log events;
* strings.ToLower and strings.TrimSpace are modelled character-wise on
  the underlying character list (the inputs of interest are ASCII).
-/

/-- Log events the program can emit on standard error, named after the
three log calls of the source: the puny-decode failure log, the
insert-failure log and the database-initialized info log. -/
inductive LogEvent where
  | decodeFailure (line err : String)
  | insertFailure (err entry : String)
  | dbInitialized
deriving DecidableEq, Repr

/-- Logger levels used by the program: slog LevelInfo and LevelDebug. -/
inductive LogLevel where
  | info
  | debug
deriving DecidableEq, Repr

/-- True on the ASCII uppercase letters A-Z, as in the range test of the
ASCII case conversion. -/
def isUpperAscii (c : Char) : Bool :=
  decide (65 ≤ c.toNat ∧ c.toNat ≤ 90)

/-- ASCII lowercase conversion of one character, the character-wise model
of strings.ToLower on the ASCII inputs the TLD list consists of. -/
def lowerChar (c : Char) : Char :=
  if h : 65 ≤ c.toNat ∧ c.toNat ≤ 90 then
    Char.ofNatAux (c.toNat + 32) (Or.inl (by omega))
  else c

/-- Character-wise lowercase of a string, model of strings.ToLower. -/
def lowerStr (s : String) : String :=
  ⟨s.data.map lowerChar⟩

/-- Model of strings.TrimSpace: drop whitespace from both ends. -/
def trimStr (s : String) : String :=
  ⟨((s.data.dropWhile Char.isWhitespace).reverse.dropWhile Char.isWhitespace).reverse⟩

/-- A string with no ASCII uppercase letter; the sense in which parsed
entries are lowercase. -/
def isLowerStr (s : String) : Bool :=
  s.data.all fun c => !isUpperAscii c

/-- The line normalization of loadTLDs: strings.ToLower applied to
strings.TrimSpace of the scanned line. -/
def normalizeLine (s : String) : String :=
  lowerStr (trimStr s)

/-- Whether a line begins with the comment marker, the model of
strings.HasPrefix line "#". -/
def isCommentLine (s : String) : Bool :=
  match s.data with
  | [] => false
  | c :: _ => c = '#'

/-- The filter of loadTLDs: a normalized line is kept unless it is empty
or starts with the comment marker. -/
def keepLine (s : String) : Bool :=
  !(s == "" || isCommentLine s)

/-- The scanner loop of loadTLDs over the fetched lines: normalize, skip
empty and comment lines, decode, log a decode failure, and append the
decoder output either way. Returns the entry list and the log events. -/
def parseLines (decode : String → String × Option String) :
    List String → List String × List LogEvent
  | [] => ([], [])
  | x :: xs =>
    let line := normalizeLine x
    if keepLine line then
      let rest := parseLines decode xs
      match (decode line).2 with
      | some e => ((decode line).1 :: rest.1, LogEvent.decodeFailure line e :: rest.2)
      | none => ((decode line).1 :: rest.1, rest.2)
    else
      parseLines decode xs

/-- The normalized lines that survive the empty/comment filter, in
encounter order. -/
def keptLines (ls : List String) : List String :=
  (ls.map normalizeLine).filter keepLine

/-- The exact error message the insert loop compares against, byte for
byte, to recognize a duplicate entry. -/
def uniqueErrMsg : String :=
  "constraint failed: UNIQUE constraint failed: tlds.tld (1555)"

/-- The insert loop of run: execute the prepared insert for each entry in
order; on an error equal to uniqueErrMsg skip silently, on any other
error log and skip, on success append the entry to the new-entry list.
Returns the final rows, the new entries, and the log events. -/
def insertLoop (exec : List String → String → List String × Option String)
    (rows : List String) :
    List String → List String × List String × List LogEvent
  | [] => (rows, [], [])
  | t :: ts =>
    match (exec rows t).2 with
    | some msg =>
      let rest := insertLoop exec (exec rows t).1 ts
      if msg == uniqueErrMsg then rest
      else (rest.1, rest.2.1, LogEvent.insertFailure msg t :: rest.2.2)
    | none =>
      let rest := insertLoop exec (exec rows t).1 ts
      (rest.1, t :: rest.2.1, rest.2.2)

/-- Model of a healthy sqlite table with the tld column as primary key:
inserting a present value fails with exactly uniqueErrMsg and changes
nothing, inserting an absent value appends it. -/
def dbInsert (rows : List String) (t : String) : List String × Option String :=
  if t ∈ rows then (rows, some uniqueErrMsg) else (rows ++ [t], none)

/-- Hexadecimal digit for the JSON control-character escapes. -/
def hexDigit (n : Nat) : Char :=
  if h : n < 10 then Char.ofNatAux (48 + n) (Or.inl (by omega))
  else if h2 : n < 16 then Char.ofNatAux (87 + n) (Or.inl (by omega))
  else '0'

/-- Escaping of one character inside a JSON string, as the Go json
encoder produces it with its default HTML escaping. -/
def jsonEscapeChar (c : Char) : String :=
  if c = '"' then "\\\""
  else if c = '\\' then "\\\\"
  else if c = '\n' then "\\n"
  else if c = '\r' then "\\r"
  else if c = '\t' then "\\t"
  else if c = '<' then "\\u003c"
  else if c = '>' then "\\u003e"
  else if c = '&' then "\\u0026"
  else if c.toNat < 32 then
    "\\u00" ++ String.mk [hexDigit (c.toNat / 16), hexDigit (c.toNat % 16)]
  else String.mk [c]

/-- A JSON string literal for one entry. -/
def jsonString (s : String) : String :=
  "\"" ++ String.join (s.data.map jsonEscapeChar) ++ "\""

/-- A JSON array document over a list of entry strings. -/
def jsonArrayDoc (xs : List String) : String :=
  "[" ++ String.intercalate "," (xs.map jsonString) ++ "]"

/-- Model of the Go json encoder applied to a string slice followed by
the newline the encoder appends: a nil slice encodes as null, a non-nil
slice (also the empty one the program builds with make) as an array. -/
def goJSONEncode : Option (List String) → String
  | none => "null" ++ "\n"
  | some xs => jsonArrayDoc xs ++ "\n"

/-- The sqlite store: whether the backing file exists and the rows of the
tlds table. -/
structure Store where
  present : Bool
  rows : List String
deriving DecidableEq, Repr

/-- Everything observable about one invocation of run: the returned
error, the final store, the bytes written to standard output, the
newly inserted entries and the log events in emission order. -/
structure RunResult where
  res : Except String Unit
  store : Store
  stdout : String
  newEntries : List String
  logs : List LogEvent
deriving Repr

/-- The run function: on a fetch error return it at once, the store and
standard output untouched; otherwise parse the lines, create the schema
when the backing file was absent, run the insert loop, and write the
new entries as one JSON document to standard output. The fetch argument
abstracts the HTTP request of loadTLDs, its error already wrapped. -/
def runModel (decode : String → String × Option String)
    (exec : List String → String → List String × Option String)
    (fetch : Except String (List String)) (st : Store) : RunResult :=
  match fetch with
  | Except.error e => ⟨Except.error e, st, "", [], []⟩
  | Except.ok lines =>
    let parsed := parseLines decode lines
    let isFirstRun := !st.present
    let rows0 := if isFirstRun then [] else st.rows
    let initLogs := if isFirstRun then [LogEvent.dbInitialized] else []
    let inserted := insertLoop exec rows0 parsed.1
    ⟨Except.ok (), ⟨true, inserted.1⟩, goJSONEncode (some inserted.2.1),
      inserted.2.1, parsed.2 ++ initLogs ++ inserted.2.2⟩

/-- Model of os.Getenv: the empty string when the variable is unset. -/
def osGetenv (v : Option String) : String :=
  v.getD ""

/-- The getenv helper of the source: fall back when os.Getenv returns the
empty string. -/
def getenv (v : Option String) (fallback : String) : String :=
  let s := osGetenv v
  if s == "" then fallback else s

/-- The compiled-in default path of the sqlite file. -/
def defaultSQLiteFilePath : String :=
  "./db.sqlite"

/-- Resolution of the sqlite file path in main from the SQLITE_FILE
environment variable. -/
def resolveSQLiteFile (env : Option String) : String :=
  getenv env defaultSQLiteFilePath

/-- Resolution of the log level in main: the debug flag, forced to true
when getenv DEBUG "false" equals "true", selects LevelDebug. -/
def resolveLogLevel (flagDebug : Bool) (debugEnv : Option String) : LogLevel :=
  let debug := if getenv debugEnv "false" == "true" then true else flagDebug
  if debug then LogLevel.debug else LogLevel.info

/-- Recognizer of the insert-failure log events among all log events. -/
def isInsertFailureLog : LogEvent → Bool
  | LogEvent.insertFailure _ _ => true
  | _ => false

/-- Decoder stub for concrete checks: decodes the punycode form of the
Cyrillic rf label and passes everything else through unchanged. -/
def decodeStub (s : String) : String × Option String :=
  if s == "xn--p1ai" then ("рф", none) else (s, none)

/-- Decoder stub that fails on every input, returning the input
unchanged together with an error, the way the idna library reports a
malformed encoded label. -/
def decodeFailAll (s : String) : String × Option String :=
  (s, some "idna: invalid label")

/-- Stated from the amended claim C2: the subsequence of entries whose
insert attempt returned no error at all, threading the store state the
same way the insert loop does. -/
def successfulInserts (exec : List String → String → List String × Option String)
    (rows : List String) : List String → List String
  | [] => []
  | t :: ts =>
    match (exec rows t).2 with
    | none => t :: successfulInserts exec (exec rows t).1 ts
    | some _ => successfulInserts exec (exec rows t).1 ts

/-- Insert backend that fails every insert with an error that is not the
uniqueness-violation message. -/
def execDiskErr (rows : List String) (_ : String) : List String × Option String :=
  (rows, some "disk I/O error")

/-- Insert backend failing with a message that semantically reports a
uniqueness violation but does not equal uniqueErrMsg byte for byte. -/
def execOtherErr (rows : List String) (_ : String) : List String × Option String :=
  (rows, some "UNIQUE constraint failed: tlds.tld")

theorem keptLines_cons (x : String) (xs : List String) :
    keptLines (x :: xs) =
      if keepLine (normalizeLine x) then normalizeLine x :: keptLines xs
      else keptLines xs := by
  simp [keptLines, List.filter_cons]

theorem parseLines_fst (d : String → String × Option String) :
    ∀ ls : List String,
      (parseLines d ls).1 = (keptLines ls).map fun l => (d l).1 := by
  intro ls
  induction ls with
  | nil => rfl
  | cons x xs ih =>
    rw [keptLines_cons]
    by_cases hk : keepLine (normalizeLine x)
    · cases hd : (d (normalizeLine x)).2 <;> simp [parseLines, hk, hd, ih]
    · simp [parseLines, hk, ih]

theorem parseLines_snd (d : String → String × Option String) :
    ∀ ls : List String,
      (parseLines d ls).2 = (keptLines ls).filterMap fun l =>
        Option.map (fun e => LogEvent.decodeFailure l e) (d l).2 := by
  intro ls
  induction ls with
  | nil => rfl
  | cons x xs ih =>
    rw [keptLines_cons]
    by_cases hk : keepLine (normalizeLine x)
    · cases hd : (d (normalizeLine x)).2 <;>
        simp [parseLines, hk, hd, ih, List.filterMap_cons]
    · simp [parseLines, hk, ih]

theorem toNat_ofNatAux (n : Nat) (h : n.isValidChar) :
    (Char.ofNatAux n h).toNat = n := rfl

theorem isUpperAscii_lowerChar (c : Char) :
    isUpperAscii (lowerChar c) = false := by
  unfold lowerChar
  split
  · rename_i h
    simp only [isUpperAscii, toNat_ofNatAux, decide_eq_false_iff_not]
    omega
  · rename_i h
    simp only [isUpperAscii, decide_eq_false_iff_not]
    omega

theorem isLowerStr_normalizeLine (s : String) :
    isLowerStr (normalizeLine s) = true := by
  have hall : ∀ l : List Char,
      (l.map lowerChar).all (fun c => !isUpperAscii c) = true := by
    intro l
    rw [List.all_eq_true]
    intro a ha
    obtain ⟨b, _, rfl⟩ := List.mem_map.1 ha
    simp [isUpperAscii_lowerChar]
  exact hall (trimStr s).data

/-- C1: for every input line whose Unicode decoding fails, the parser
logs the failure (line content and error) and still appends the line to
the entry sequence; since the idna library returns a failed label
unchanged (hypothesis H), the appended entry is the original line after
trimming and lowercasing. Decode failure never drops an entry (the entry
count equals the kept-line count) and never aborts the run (the run
result is ok for every store and insert backend). -/
theorem decode_failure_nonfatal (d : String → String × Option String)
    (ls : List String)
    (H : ∀ s, (d s).2 ≠ none → (d s).1 = s) :
    (parseLines d ls).1.length = (keptLines ls).length
    ∧ (∀ l e, l ∈ keptLines ls → (d l).2 = some e →
        l ∈ (parseLines d ls).1
        ∧ LogEvent.decodeFailure l e ∈ (parseLines d ls).2)
    ∧ (∀ exec st, (runModel d exec (Except.ok ls) st).res = Except.ok ()) := by
  refine ⟨?_, ?_, ?_⟩
  · rw [parseLines_fst]
    exact List.length_map _ _
  · intro l e hl hd
    constructor
    · rw [parseLines_fst]
      have hdl : (d l).1 = l := H l (by rw [hd]; exact Option.some_ne_none e)
      exact List.mem_map.2 ⟨l, hl, hdl⟩
    · rw [parseLines_snd]
      exact List.mem_filterMap.2 ⟨l, hl, by rw [hd]; rfl⟩
  · intro exec st
    rfl

/-- Witness for C1 at the concrete failing line "  XN-- ": the entry
count is kept, the trimmed lowercased original line is retained as the
entry and the decode failure is logged. -/
theorem decode_failure_nonfatal_check :
    (parseLines decodeFailAll ["  XN-- "]).1.length = (keptLines ["  XN-- "]).length
    ∧ ("xn--" ∈ (parseLines decodeFailAll ["  XN-- "]).1
        ∧ LogEvent.decodeFailure "xn--" "idna: invalid label"
            ∈ (parseLines decodeFailAll ["  XN-- "]).2) :=
  ⟨(decode_failure_nonfatal decodeFailAll ["  XN-- "] (fun _ _ => rfl)).1,
    (decode_failure_nonfatal decodeFailAll ["  XN-- "] (fun _ _ => rfl)).2.1
      "xn--" "idna: invalid label" (by decide) rfl⟩

/-- C3: the parsed entry sequence is exactly the decoder image of the
lines that are non-empty and not comments after trimming and
lowercasing, in encounter order and without deduplication; on the
four-line example the sequence is com followed by the Cyrillic rf
label. -/
theorem parse_exactly_kept_decoded (d : String → String × Option String)
    (ls : List String)
    (h1 : d "com" = ("com", none))
    (h2 : d "xn--p1ai" = ("рф", none)) :
    (parseLines d ls).1 = (keptLines ls).map (fun l => (d l).1)
    ∧ (parseLines d ["# comment", "", "COM", "XN--P1AI"]).1 = ["com", "рф"] := by
  constructor
  · exact parseLines_fst d ls
  · rw [parseLines_fst]
    have hk : keptLines ["# comment", "", "COM", "XN--P1AI"] = ["com", "xn--p1ai"] := by
      decide
    rw [hk]
    simp [h1, h2]

/-- Witness for C3: the example decoded with the concrete stub. -/
theorem parse_exactly_kept_decoded_check :
    (parseLines decodeStub ["# comment", "", "COM", "XN--P1AI"]).1 = ["com", "рф"] :=
  (parse_exactly_kept_decoded decodeStub [] rfl rfl).2

/-- C6: every parsed entry is lowercase (contains no ASCII uppercase
letter): each kept line is lowercased before decoding, and the decoder
preserves that property (hypothesis Hd, true of the idna profile since
the basic code points of a decoded label are copied from the lowercased
input and decoded code points are outside ASCII). -/
theorem parsed_entries_lowercase (d : String → String × Option String)
    (ls : List String)
    (Hd : ∀ s, isLowerStr s = true → isLowerStr (d s).1 = true) :
    ∀ e ∈ (parseLines d ls).1, isLowerStr e = true := by
  intro e he
  rw [parseLines_fst] at he
  obtain ⟨l, hl, rfl⟩ := List.mem_map.1 he
  apply Hd
  rw [keptLines] at hl
  obtain ⟨hl', _⟩ := List.mem_filter.1 hl
  obtain ⟨x, _, rfl⟩ := List.mem_map.1 hl'
  exact isLowerStr_normalizeLine x

/-- Witness for C6 with the concrete stub decoder, on a line that is
uppercase in the input and one that decodes to a non-ASCII label. -/
theorem parsed_entries_lowercase_check :
    isLowerStr "рф" = true :=
  parsed_entries_lowercase decodeStub ["COM", "XN--P1AI"]
    (by
      intro s hs
      unfold decodeStub
      by_cases h : s == "xn--p1ai"
      · simp only [h, if_true]
        decide
      · simp [h, hs])
    "рф" (by decide)

theorem insertLoop_new_sublist (exec : List String → String → List String × Option String) :
    ∀ (ts rows : List String), List.Sublist (insertLoop exec rows ts).2.1 ts := by
  intro ts
  induction ts with
  | nil => intro rows; simp [insertLoop]
  | cons t ts ih =>
    intro rows
    simp only [insertLoop]
    cases hd : (exec rows t).2 with
    | none => exact List.Sublist.cons₂ t (ih _)
    | some msg =>
      by_cases hm : (msg == uniqueErrMsg) = true
      · simp only [hm, if_true]
        exact List.Sublist.cons t (ih _)
      · simp only [eq_false_of_ne_true hm, if_false]
        exact List.Sublist.cons t (ih _)

theorem parseLines_no_insert_logs (d : String → String × Option String)
    (ls : List String) :
    ((parseLines d ls).2).filter isInsertFailureLog = [] := by
  rw [parseLines_snd]
  generalize keptLines ls = ks
  induction ks with
  | nil => rfl
  | cons k ks ih =>
    cases hd : (d k).2 <;>
      simp [hd, List.filterMap_cons, List.filter_cons, isInsertFailureLog, ih]

theorem mem_insertLoop_dbInsert :
    ∀ (ts rows : List String) (t : String), t ∈ rows ∨ t ∈ ts →
      t ∈ (insertLoop dbInsert rows ts).1 := by
  intro ts
  induction ts with
  | nil =>
    intro rows t h
    rcases h with h | h
    · simpa [insertLoop] using h
    · cases h
  | cons s ts ih =>
    intro rows t h
    by_cases hs : s ∈ rows
    · have hred : insertLoop dbInsert rows (s :: ts) = insertLoop dbInsert rows ts := by
        simp [insertLoop, dbInsert, hs]
      rw [hred]
      apply ih
      rcases h with h | h
      · exact Or.inl h
      · rcases List.mem_cons.1 h with rfl | h
        · exact Or.inl hs
        · exact Or.inr h
    · have hred : (insertLoop dbInsert rows (s :: ts)).1 =
          (insertLoop dbInsert (rows ++ [s]) ts).1 := by
        simp [insertLoop, dbInsert, hs]
      rw [hred]
      apply ih
      rcases h with h | h
      · exact Or.inl (List.mem_append.2 (Or.inl h))
      · rcases List.mem_cons.1 h with rfl | h
        · exact Or.inl (List.mem_append.2 (Or.inr (List.mem_singleton.2 rfl)))
        · exact Or.inr h

theorem insertLoop_dbInsert_all_mem :
    ∀ (ts rows : List String), (∀ t ∈ ts, t ∈ rows) →
      insertLoop dbInsert rows ts = (rows, [], []) := by
  intro ts
  induction ts with
  | nil => intro rows _; rfl
  | cons s ts ih =>
    intro rows h
    have hs : s ∈ rows := h s (List.mem_cons_self s ts)
    have hrec := ih rows fun t ht => h t (List.mem_cons_of_mem s ht)
    simp [insertLoop, dbInsert, hs, hrec]

/-- C2 counterexample: an insert that fails with a non-uniqueness error
(disk I O error) does not violate the uniqueness constraint, yet the
entry is absent from the new-entries result, refuting the claimed
equivalence at the concrete input com against an empty store. -/
theorem new_iff_no_unique_violation_cex :
    ¬ (("com" ∈ (insertLoop execDiskErr [] ["com"]).2.1)
        ↔ (execDiskErr [] "com").2 ≠ some uniqueErrMsg) := by
  decide

/-- C2 amended: a fetched entry appears in the new-this-run result set
if and only if its insert attempt returned no error at all; entries
whose insert hit the uniqueness violation, and entries whose insert
failed with any other error, are both excluded. -/
theorem new_entries_eq_successful_inserts
    (exec : List String → String → List String × Option String) :
    ∀ (ts rows : List String),
      (insertLoop exec rows ts).2.1 = successfulInserts exec rows ts := by
  intro ts
  induction ts with
  | nil => intro rows; rfl
  | cons t ts ih =>
    intro rows
    simp only [insertLoop, successfulInserts]
    cases hd : (exec rows t).2 with
    | none => simp [ih]
    | some msg =>
      by_cases hm : (msg == uniqueErrMsg) = true
      · simp only [hm, if_true]
        exact ih _
      · simp only [eq_false_of_ne_true hm, if_false]
        exact ih _

/-- C9: an insert failure is classified as the silent duplicate outcome
exactly when its message equals the string
constraint failed: UNIQUE constraint failed: tlds.tld (1555) byte for
byte; with that message the loop continues with no log and no entry
appended, and with any other message the failure is logged, the entry is
excluded from the result and the batch still continues. -/
theorem duplicate_is_exact_message_match
    (exec : List String → String → List String × Option String)
    (rows : List String) (t : String) (ts : List String) (msg : String)
    (h : (exec rows t).2 = some msg) :
    uniqueErrMsg = "constraint failed: UNIQUE constraint failed: tlds.tld (1555)"
    ∧ (msg = uniqueErrMsg →
        insertLoop exec rows (t :: ts) = insertLoop exec (exec rows t).1 ts)
    ∧ (msg ≠ uniqueErrMsg →
        insertLoop exec rows (t :: ts) =
          ((insertLoop exec (exec rows t).1 ts).1,
            (insertLoop exec (exec rows t).1 ts).2.1,
            LogEvent.insertFailure msg t
              :: (insertLoop exec (exec rows t).1 ts).2.2)) := by
  refine ⟨rfl, ?_, ?_⟩
  · intro hm
    simp [insertLoop, h, hm]
  · intro hm
    simp [insertLoop, h, hm]

/-- Witness for C9: a message that semantically reports a uniqueness
violation but is not byte-for-byte equal to uniqueErrMsg is logged and
the entry is dropped from the result. -/
theorem duplicate_is_exact_message_match_check :
    insertLoop execOtherErr [] ["com"] =
      ([], [],
        [LogEvent.insertFailure "UNIQUE constraint failed: tlds.tld" "com"]) := by
  have h := (duplicate_is_exact_message_match execOtherErr [] "com" []
    "UNIQUE constraint failed: tlds.tld" rfl).2.2 (by decide)
  rw [h]
  rfl

/-- C4: on success the program writes to standard output exactly one
complete JSON document, the array of the newly inserted entries in
encounter order (a subsequence of the parsed entry sequence), the
document being the empty array and not null when nothing is new. -/
theorem stdout_single_json_array (d : String → String × Option String)
    (exec : List String → String → List String × Option String)
    (ls : List String) (st : Store) :
    (runModel d exec (Except.ok ls) st).res = Except.ok ()
    ∧ (runModel d exec (Except.ok ls) st).stdout =
        goJSONEncode (some (runModel d exec (Except.ok ls) st).newEntries)
    ∧ List.Sublist (runModel d exec (Except.ok ls) st).newEntries (parseLines d ls).1
    ∧ goJSONEncode (some []) = "[]" ++ "\n"
    ∧ goJSONEncode none = "null" ++ "\n"
    ∧ goJSONEncode (some []) ≠ goJSONEncode none := by
  refine ⟨rfl, rfl, ?_, rfl, rfl, by decide⟩
  exact insertLoop_new_sublist exec (parseLines d ls).1 _

/-- C7: when the fetch fails the run aborts with that fetch error before
any store operation: the store is returned untouched, nothing is written
to standard output, no entry is reported new and nothing is logged. -/
theorem fetch_error_aborts_untouched (d : String → String × Option String)
    (exec : List String → String → List String × Option String)
    (e : String) (st : Store) :
    runModel d exec (Except.error e) st =
      ⟨Except.error e, st, "", [], []⟩ := rfl

/-- C5: idempotence of the pipeline against the healthy store model:
running the run function a second time over the same source list,
starting from the store the first run produced, reports no new entries
and logs no insert error, every duplicate insert being skipped silently
by the uniqueness-violation branch. -/
theorem second_run_reports_nothing (d : String → String × Option String)
    (ls : List String) (st : Store) :
    (runModel d dbInsert (Except.ok ls)
        (runModel d dbInsert (Except.ok ls) st).store).newEntries = []
    ∧ ((runModel d dbInsert (Except.ok ls)
        (runModel d dbInsert (Except.ok ls) st).store).logs.filter
          isInsertFailureLog = []) := by
  have hstore : (runModel d dbInsert (Except.ok ls) st).store =
      ⟨true, (insertLoop dbInsert (if !st.present then [] else st.rows)
        (parseLines d ls).1).1⟩ := rfl
  rw [hstore]
  set rows1 := (insertLoop dbInsert (if !st.present then [] else st.rows)
    (parseLines d ls).1).1 with hr1
  have hmem : ∀ t ∈ (parseLines d ls).1, t ∈ rows1 := fun t ht =>
    mem_insertLoop_dbInsert _ _ t (Or.inr ht)
  have hloop : insertLoop dbInsert rows1 (parseLines d ls).1 = (rows1, [], []) :=
    insertLoop_dbInsert_all_mem _ _ hmem
  constructor
  · show (insertLoop dbInsert rows1 (parseLines d ls).1).2.1 = []
    rw [hloop]
  · show ((parseLines d ls).2 ++ [] ++
        (insertLoop dbInsert rows1 (parseLines d ls).1).2.2).filter
          isInsertFailureLog = []
    rw [hloop]
    simp [parseLines_no_insert_logs]

theorem getenv_debug_iff (env : Option String) :
    ((getenv env "false" == "true") = true ↔ osGetenv env = "true") := by
  unfold getenv
  by_cases h0 : osGetenv env = ""
  · simp [h0]
  · have hb : (osGetenv env == "") = false := by
      simpa using h0
    simp [hb]

/-- C8: the log level is Debug exactly when the debug command-line flag
is given or the DEBUG environment variable equals the string true;
values such as TRUE, 1 or an unset variable leave the level at Info, and
no environment value can turn the flag off once given. -/
theorem debug_level_iff (flagDebug : Bool) (env : Option String) :
    (resolveLogLevel flagDebug env = LogLevel.debug
      ↔ (flagDebug = true ∨ osGetenv env = "true"))
    ∧ resolveLogLevel false (some "TRUE") = LogLevel.info
    ∧ resolveLogLevel false (some "1") = LogLevel.info
    ∧ resolveLogLevel false none = LogLevel.info
    ∧ resolveLogLevel true env = LogLevel.debug := by
  refine ⟨?_, by decide, by decide, by decide, ?_⟩
  · unfold resolveLogLevel
    by_cases hg : (getenv env "false" == "true") = true
    · have hos := (getenv_debug_iff env).1 hg
      simp [hg, hos]
    · have hos : ¬ osGetenv env = "true" := fun h => hg ((getenv_debug_iff env).2 h)
      cases flagDebug <;> simp [eq_false_of_ne_true hg, hos]
  · simp [resolveLogLevel, ite_self]

/-- C10: for both configuration environment variables a value equal to
the empty string behaves exactly like an unset variable: the sqlite path
falls back to ./db.sqlite and the debug variable falls back to false,
leaving the level at Info. -/
theorem empty_env_like_unset (fb : String) :
    getenv (some "") fb = getenv none fb
    ∧ getenv none fb = fb
    ∧ resolveSQLiteFile (some "") = defaultSQLiteFilePath
    ∧ resolveSQLiteFile none = defaultSQLiteFilePath
    ∧ defaultSQLiteFilePath = "./db.sqlite"
    ∧ getenv (some "") "false" = "false"
    ∧ resolveLogLevel false (some "") = LogLevel.info
    ∧ resolveLogLevel false none = LogLevel.info :=
  ⟨rfl, rfl, rfl, rfl, rfl, rfl, rfl, rfl⟩
